import Mathlib

/-!
A shallow embedding, in Lean 4, of the core of the PMBot copycat-trading
repository: the trade feed with deduplication (src/trader/websocket_monitor.py),
the portfolio tracker (src/trader/position_manager.py), the validation
pipeline (src/trader/trade_validator.py) and the circuit-breaker risk manager
(src/trader/risk_manager.py), together with theorems settling the stated
properties of these components.

Modelling conventions:
- Python floats are modelled as exact rationals (ℚ); Python's round(x, 2)
  (round-half-to-even on the exact value) is modelled by roundHalfEven below.
- Python code that can raise (ZeroDivisionError in update_drawdown,
  in the edge / price-movement checks, and in add_position) is modelled
  with Except Unit; .error () stands for the raised exception.
- The module-level configuration constants of src/trader/config.py are
  gathered into a Config structure; defaultConfig holds the literal values
  from that file.  BANKROLL_MODE defaults to fixed, so get_net_worth is
  modelled in its fixed-bankroll branch (the dynamic branch queries an
  external wallet service).
- datetime.now(timezone.utc) is modelled by an explicit Clock argument
  carrying the UTC calendar date (as an integer day count) and the unix
  timestamp; one validation / circuit-breaker call uses a single Clock.
- The human-readable reason strings of ValidationResult interpolate numbers
  via f-strings in the source; they are modelled by the Reason enumeration,
  one constructor per distinct source message (the two checks that share
  the literal text about the current price share one constructor).
-/

namespace PMBot

/-! ### Rounding: Python round(x, 2) on exact rationals -/

/-- Round a rational to the nearest integer, ties to even
(the rounding Python's round() performs on the exact value). -/
def roundHalfEven (x : ℚ) : ℤ :=
  let f := ⌊x⌋
  let r := x - (f : ℚ)
  if r < 1/2 then f
  else if 1/2 < r then f + 1
  else if f % 2 = 0 then f else f + 1

/-- Python round(x, 2): round to two decimal places. -/
def round2 (x : ℚ) : ℚ := (roundHalfEven (100 * x) : ℚ) / 100

/-! ### Configuration (src/trader/config.py) -/

/-- The VALIDATION / POSITION_LIMITS thresholds of src/trader/config.py. -/
structure Config where
  min_hours_until_close : ℚ
  min_24h_volume_usd : ℚ
  max_trade_age_seconds : ℤ
  max_trades_per_hour : ℕ
  min_seconds_between_trades : ℤ
  daily_loss_limit_pct : ℚ
  max_drawdown_pct : ℚ
  min_edge_pct : ℚ
  max_kelly_fraction : ℚ
  min_price : ℚ
  max_price : ℚ
  min_bet_size_usd : ℚ
  max_bet_size_usd : ℚ
  max_bet_pct_portfolio : ℚ
  max_price_movement_pct : ℚ
  deriving Repr, DecidableEq

/-- The literal threshold values of src/trader/config.py. -/
def defaultConfig : Config where
  min_hours_until_close := 24
  min_24h_volume_usd := 5000
  max_trade_age_seconds := 60
  max_trades_per_hour := 10
  min_seconds_between_trades := 30
  daily_loss_limit_pct := 5
  max_drawdown_pct := 15
  min_edge_pct := 0
  max_kelly_fraction := 1/4
  min_price := 1/100
  max_price := 99/100
  min_bet_size_usd := 1/1000
  max_bet_size_usd := 1000
  max_bet_pct_portfolio := 10
  max_price_movement_pct := 5

/-- UTC wall clock: calendar date (day count) and unix timestamp, the two
projections of datetime.now(timezone.utc) the code reads. -/
structure Clock where
  date : ℤ
  ts : ℤ
  deriving Repr, DecidableEq

/-! ### TradeEvent and the trade monitor (src/trader/websocket_monitor.py) -/

/-- TradeEvent: the fields parsed from an activity record. -/
structure TradeEvent where
  trader_address : String
  side : String
  asset : String
  condition_id : String
  size : ℚ
  price : ℚ
  timestamp : ℤ
  outcome : String
  market_title : String
  transaction_hash : String
  deriving Repr, DecidableEq

/-- Mutable state of TradeMonitor: the seen_tx_hashes deduplication set
(as a list of distinct inserted hashes, most recent first) and the
last_trade_timestamp watermark, plus the monitored target_account. -/
structure MonState where
  target : String
  seen_tx_hashes : List String
  last_trade_timestamp : ℤ
  deriving Repr, DecidableEq

/-- The TradeMonitor state right after construction. -/
def initMon (target : String) : MonState :=
  { target := target, seen_tx_hashes := [], last_trade_timestamp := 0 }

/-- Which acquisition path delivered an event: the websocket stream or the
polling fallback. -/
inductive Src where
  | ws
  | poll
  deriving Repr, DecidableEq

/-- TradeMonitor._on_ws_message on one already-parsed trade record:
skip unless the record carries a proxyWallet equal to the target, skip if the
transaction hash was already seen, else record the hash, move the watermark
to the event's timestamp and fire the callback.  Returns the new state and
whether on_trade_callback was invoked.  Note: this path performs no
comparison of the event timestamp against last_trade_timestamp. -/
def onWsMessage (s : MonState) (e : TradeEvent) : MonState × Bool :=
  if e.trader_address ≠ "" ∧ e.trader_address = s.target then
    if e.transaction_hash ∈ s.seen_tx_hashes then (s, false)
    else
      ({ s with seen_tx_hashes := e.transaction_hash :: s.seen_tx_hashes,
                last_trade_timestamp := e.timestamp }, true)
  else (s, false)

/-- The per-record body of TradeMonitor._polling_loop: skip if the
transaction hash was seen, skip if the timestamp is at or below the
watermark, else record, advance the watermark and fire the callback. -/
def onPollRecord (s : MonState) (e : TradeEvent) : MonState × Bool :=
  if e.transaction_hash ∈ s.seen_tx_hashes then (s, false)
  else if e.timestamp ≤ s.last_trade_timestamp then (s, false)
  else
    ({ s with seen_tx_hashes := e.transaction_hash :: s.seen_tx_hashes,
              last_trade_timestamp := e.timestamp }, true)

/-- One delivery step, via either acquisition path (the two paths share the
seen_tx_hashes set and the watermark, and may interleave after fallover). -/
def monStep (s : MonState) : Src × TradeEvent → MonState × Bool
  | (Src.ws, e) => onWsMessage s e
  | (Src.poll, e) => onPollRecord s e

/-- The monitor state after processing a sequence of deliveries. -/
def runMon (s : MonState) : List (Src × TradeEvent) → MonState
  | [] => s
  | p :: ps => runMon (monStep s p).1 ps

/-- The per-delivery callback-fired flags along a sequence of deliveries. -/
def runFired (s : MonState) : List (Src × TradeEvent) → List Bool
  | [] => []
  | p :: ps => (monStep s p).2 :: runFired (monStep s p).1 ps

/-! ### PositionManager (src/trader/position_manager.py) -/

/-- An open position (the fields add_position reads and writes). -/
structure Position where
  condition_id : String
  asset : String
  side : String
  size : ℚ
  avg_price : ℚ
  deriving Repr, DecidableEq

/-- Mutable state of PositionManager.  positions is the condition_id-keyed
dict; trade_history keeps the recorded trade timestamps (the only field of
the history entries the code reads back). -/
structure PMState where
  positions : List (String × Position)
  initial_capital : ℚ
  total_realized_pnl : ℚ
  total_unrealized_pnl : ℚ
  daily_pnl : ℚ
  daily_reset_date : ℤ
  peak_net_worth : ℚ
  current_drawdown_pct : ℚ
  trade_history : List ℤ
  last_trade_time : ℤ
  deriving Repr, DecidableEq

/-- PositionManager.__init__ before any initialize call: all capital and
PnL fields are 0.0, the daily reset marker is today's date. -/
def initState (today : ℤ) : PMState where
  positions := []
  initial_capital := 0
  total_realized_pnl := 0
  total_unrealized_pnl := 0
  daily_pnl := 0
  daily_reset_date := today
  peak_net_worth := 0
  current_drawdown_pct := 0
  trade_history := []
  last_trade_time := 0

/-- PositionManager.initialize: set the starting bankroll and the
high-water mark.  (Named initializeCapital here; the source method name
is the single word initialize.) -/
def initializeCapital (pm : PMState) (initial_capital : ℚ) : PMState :=
  { pm with initial_capital := initial_capital, peak_net_worth := initial_capital }

/-- PositionManager.get_net_worth in the default fixed-bankroll mode:
initial capital plus accumulated realized and unrealized PnL. -/
def getNetWorth (pm : PMState) : ℚ :=
  pm.initial_capital + pm.total_realized_pnl + pm.total_unrealized_pnl

/-- PositionManager.has_position: dict-key membership test. -/
def hasPosition (pm : PMState) (condition_id : String) : Bool :=
  pm.positions.any (fun q => q.1 == condition_id)

/-- PositionManager.update_daily_stats: reset daily PnL and the marker when
the UTC calendar date has advanced past the stored marker. -/
def updateDailyStats (clk : Clock) (pm : PMState) : PMState :=
  if clk.date > pm.daily_reset_date then
    { pm with daily_pnl := 0, daily_reset_date := clk.date }
  else pm

/-- PositionManager.update_drawdown: raise the high-water mark (resetting
drawdown to zero) when net worth exceeds it, else recompute the percentage
shortfall.  The else branch divides by peak_net_worth, so with a zero peak
and non-positive net worth the source raises ZeroDivisionError (.error ()). -/
def updateDrawdown (pm : PMState) : Except Unit PMState :=
  let net_worth := getNetWorth pm
  if net_worth > pm.peak_net_worth then
    Except.ok { pm with peak_net_worth := net_worth, current_drawdown_pct := 0 }
  else if pm.peak_net_worth = 0 then Except.error ()
  else
    Except.ok { pm with current_drawdown_pct :=
      (pm.peak_net_worth - net_worth) / pm.peak_net_worth * 100 }

/-- PositionManager.record_trade: append to the history, stamp
last_trade_time, and subtract the trade's full cost (size times price)
from daily_pnl. -/
def recordTrade (pm : PMState) (nowTs : ℤ) (size price : ℚ) : PMState :=
  { pm with trade_history := nowTs :: pm.trade_history,
            last_trade_time := nowTs,
            daily_pnl := pm.daily_pnl - size * price }

/-- record_trade folded over a list of (timestamp, size, price) trades. -/
def recordTrades (pm : PMState) (l : List (ℤ × ℚ × ℚ)) : PMState :=
  l.foldl (fun s x => recordTrade s x.1 x.2.1 x.2.2) pm

/-- PositionManager.add_position: average into an existing position for the
market, else open a new one.  Averaging divides by the summed size, so a
summed size of zero raises ZeroDivisionError in the source (.error ()). -/
def addPosition (pm : PMState) (condition_id asset side : String)
    (size price : ℚ) : Except Unit PMState :=
  match pm.positions.find? (fun q => q.1 == condition_id) with
  | some q =>
      let pos := q.2
      let newSize := pos.size + size
      if newSize = 0 then Except.error ()
      else
        let total_cost := pos.size * pos.avg_price + size * price
        let updated :=
          pm.positions.map (fun r =>
            if r.1 == condition_id then
              (r.1, { pos with size := newSize, avg_price := total_cost / newSize })
            else r)
        Except.ok { pm with positions := updated }
  | none =>
      let opened := (condition_id, Position.mk condition_id asset side size price)
      Except.ok { pm with positions := opened :: pm.positions }

/-- PositionManager.get_trades_last_hour: count history entries from the
trailing hour. -/
def getTradesLastHour (clk : Clock) (pm : PMState) : ℕ :=
  (pm.trade_history.filter (fun ts => ts > clk.ts - 3600)).length

/-- PositionManager.calculate_position_size: their bet as a percentage of
their net worth, capped by the Kelly fraction, applied to our net worth,
clamped to the absolute [min, max] bet bounds, clamped to the maximum
portfolio percentage, rounded to cents; zero when either net worth is
non-positive. -/
def calculatePositionSize (c : Config) (pm : PMState)
    (their_bet_size their_net_worth : ℚ) : ℚ :=
  let our_net_worth := getNetWorth pm
  if their_net_worth ≤ 0 ∨ our_net_worth ≤ 0 then 0
  else
    let their_bet_pct := their_bet_size / their_net_worth * 100
    let their_bet_pct := min their_bet_pct (c.max_kelly_fraction * 100)
    let our_bet_size := their_bet_pct / 100 * our_net_worth
    let our_bet_size := max our_bet_size c.min_bet_size_usd
    let our_bet_size := min our_bet_size c.max_bet_size_usd
    let max_bet := c.max_bet_pct_portfolio / 100 * our_net_worth
    let our_bet_size := min our_bet_size max_bet
    round2 our_bet_size

/-! ### TradeValidator (src/trader/trade_validator.py) -/

/-- The distinct reason messages of ValidationResult (the source carries
them as f-strings; one constructor per distinct message). -/
inductive Reason where
  | couldNotFetchMarketData
  | priceOutsideRange
  | priceValid
  | outcomeMatchingOK
  | notDuplicate
  | marketClosed
  | liquidityOK
  | noEndDateSet
  | couldNotParseEndDate
  | marketClosesSoon
  | marketClosesOK
  | volumeTooLow
  | volumeOK
  | spreadOK
  | tradeTooOld
  | tradeAgeOK
  | rateLimitTradesPerHour
  | rateLimitTooSoon
  | rateLimitOK
  | dailyLossExceeded
  | dailyPnlOK
  | drawdownExceeded
  | drawdownOK
  | couldNotGetCurrentPrice
  | edgeTooSmall
  | edgeOK
  | alreadyHavePosition
  | betBelowMinimum
  | betAboveMaximum
  | positionSizeOK
  | priceMovedTooMuch
  | priceMovementOK
  | allChecksPassed
  deriving Repr, DecidableEq

/-- ValidationResult: pass/fail plus the reason message. -/
structure ValidationResult where
  passed : Bool
  reason : Reason
  deriving Repr, DecidableEq

/-- Market data consumed by the validator: the closed flag, the (already
parsed) end timestamp when one is present, the 24h volume, and the
token_id-to-price list.  An end timestamp of 0 is falsy in the source and
takes its could-not-parse pass branch. -/
structure MarketData where
  closed : Bool
  endDate : Option ℤ
  volume24hr : ℚ
  tokens : List (String × ℚ)
  deriving Repr, DecidableEq

/-- TradeValidator._get_current_price: the price of the trade's token in
the market snapshot, if listed. -/
def getCurrentPrice (md : MarketData) (asset : String) : Option ℚ :=
  (md.tokens.find? (fun q => q.1 == asset)).map (fun q => q.2)

/-- TradeValidator._check_price_sanity. -/
def checkPriceSanity (c : Config) (t : TradeEvent) : ValidationResult :=
  if t.price < c.min_price ∨ t.price > c.max_price then
    ⟨false, Reason.priceOutsideRange⟩
  else ⟨true, Reason.priceValid⟩

/-- TradeValidator._check_outcome_matching: always passes. -/
def checkOutcomeMatching : ValidationResult := ⟨true, Reason.outcomeMatchingOK⟩

/-- TradeValidator._check_duplicate: always passes (deduplication is done
upstream by the monitor). -/
def checkDuplicate : ValidationResult := ⟨true, Reason.notDuplicate⟩

/-- TradeValidator._check_liquidity: fail when the market is closed. -/
def checkLiquidity (md : MarketData) : ValidationResult :=
  if md.closed then ⟨false, Reason.marketClosed⟩ else ⟨true, Reason.liquidityOK⟩

/-- TradeValidator._check_market_closing: with an end timestamp present and
truthy, fail when fewer than the configured minimum hours remain. -/
def checkMarketClosing (c : Config) (clk : Clock) (md : MarketData) :
    ValidationResult :=
  match md.endDate with
  | none => ⟨true, Reason.noEndDateSet⟩
  | some endTs =>
      if endTs = 0 then ⟨true, Reason.couldNotParseEndDate⟩
      else
        let hours_until_close : ℚ := ((endTs - clk.ts : ℤ) : ℚ) / 3600
        if hours_until_close < c.min_hours_until_close then
          ⟨false, Reason.marketClosesSoon⟩
        else ⟨true, Reason.marketClosesOK⟩

/-- TradeValidator._check_volume. -/
def checkVolume (c : Config) (md : MarketData) : ValidationResult :=
  if md.volume24hr < c.min_24h_volume_usd then ⟨false, Reason.volumeTooLow⟩
  else ⟨true, Reason.volumeOK⟩

/-- TradeValidator._check_spread: placeholder pass. -/
def checkSpread : ValidationResult := ⟨true, Reason.spreadOK⟩

/-- TradeValidator._check_trade_age: fail when the trade is older than the
configured maximum age. -/
def checkTradeAge (c : Config) (clk : Clock) (t : TradeEvent) :
    ValidationResult :=
  if clk.ts - t.timestamp > c.max_trade_age_seconds then
    ⟨false, Reason.tradeTooOld⟩
  else ⟨true, Reason.tradeAgeOK⟩

/-- TradeValidator._check_rate_limit: trailing-hour trade cap, then the
minimum interval since the last trade. -/
def checkRateLimit (c : Config) (clk : Clock) (pm : PMState) :
    ValidationResult :=
  if getTradesLastHour clk pm ≥ c.max_trades_per_hour then
    ⟨false, Reason.rateLimitTradesPerHour⟩
  else if clk.ts - pm.last_trade_time < c.min_seconds_between_trades then
    ⟨false, Reason.rateLimitTooSoon⟩
  else ⟨true, Reason.rateLimitOK⟩

/-- The read-only part of TradeValidator._check_daily_loss_limit, applied to
the state already updated by update_daily_stats: fail only with positive
net worth and a daily PnL percentage strictly below the negated limit. -/
def checkDailyLoss (c : Config) (pm : PMState) : ValidationResult :=
  let net_worth := getNetWorth pm
  if net_worth > 0 ∧ pm.daily_pnl / net_worth * 100 < -c.daily_loss_limit_pct then
    ⟨false, Reason.dailyLossExceeded⟩
  else ⟨true, Reason.dailyPnlOK⟩

/-- The read-only part of TradeValidator._check_drawdown_protection, applied
to the state already updated by update_drawdown. -/
def checkDrawdown (c : Config) (pm : PMState) : ValidationResult :=
  if pm.current_drawdown_pct > c.max_drawdown_pct then
    ⟨false, Reason.drawdownExceeded⟩
  else ⟨true, Reason.drawdownOK⟩

/-- TradeValidator._check_minimum_edge: signed price-movement edge against
the current snapshot price; dividing by a zero trade price raises
ZeroDivisionError in the source. -/
def checkMinimumEdge (c : Config) (t : TradeEvent) (md : MarketData) :
    Except Unit ValidationResult :=
  match getCurrentPrice md t.asset with
  | none => Except.ok ⟨false, Reason.couldNotGetCurrentPrice⟩
  | some current_price =>
      if t.price = 0 then Except.error ()
      else
        let edge_pct :=
          if t.side = "BUY" then (t.price - current_price) / t.price * 100
          else (current_price - t.price) / t.price * 100
        if edge_pct < c.min_edge_pct then Except.ok ⟨false, Reason.edgeTooSmall⟩
        else Except.ok ⟨true, Reason.edgeOK⟩

/-- TradeValidator._check_position_limits: no existing position in the
market, and the sizer's proposal within the absolute bet bounds. -/
def checkPositionLimits (c : Config) (t : TradeEvent) (their_net_worth : ℚ)
    (pm : PMState) : ValidationResult :=
  if hasPosition pm t.condition_id then ⟨false, Reason.alreadyHavePosition⟩
  else
    let bet_size := calculatePositionSize c pm (t.size * t.price) their_net_worth
    if bet_size < c.min_bet_size_usd then ⟨false, Reason.betBelowMinimum⟩
    else if bet_size > c.max_bet_size_usd then ⟨false, Reason.betAboveMaximum⟩
    else ⟨true, Reason.positionSizeOK⟩

/-- TradeValidator._check_price_movement: absolute percentage move of the
current snapshot price from the trade price; dividing by a zero trade price
raises ZeroDivisionError in the source. -/
def checkPriceMovement (c : Config) (t : TradeEvent) (md : MarketData) :
    Except Unit ValidationResult :=
  match getCurrentPrice md t.asset with
  | none => Except.ok ⟨false, Reason.couldNotGetCurrentPrice⟩
  | some current_price =>
      if t.price = 0 then Except.error ()
      else
        let price_change_pct := |(current_price - t.price) / t.price| * 100
        if price_change_pct > c.max_price_movement_pct then
          Except.ok ⟨false, Reason.priceMovedTooMuch⟩
        else Except.ok ⟨true, Reason.priceMovementOK⟩

/-- The checks list of TradeValidator.validate_trade.  The Python source
builds this list eagerly, so every element is evaluated (and the state
mutations of update_daily_stats and update_drawdown performed) before any
result is inspected; the final state is returned alongside the list. -/
def evalChecks (c : Config) (clk : Clock) (t : TradeEvent)
    (their_net_worth : ℚ) (md : MarketData) (pm : PMState) :
    Except Unit (List ValidationResult × PMState) := do
  let r1 := checkPriceSanity c t
  let r2 := checkOutcomeMatching
  let r3 := checkDuplicate
  let r4 := checkLiquidity md
  let r5 := checkMarketClosing c clk md
  let r6 := checkVolume c md
  let r7 := checkSpread
  let r8 := checkTradeAge c clk t
  let r9 := checkRateLimit c clk pm
  let pm1 := updateDailyStats clk pm
  let r10 := checkDailyLoss c pm1
  let pm2 ← updateDrawdown pm1
  let r11 := checkDrawdown c pm2
  let r12 ← checkMinimumEdge c t md
  let r13 := checkPositionLimits c t their_net_worth pm2
  let r14 ← checkPriceMovement c t md
  Except.ok ([r1, r2, r3, r4, r5, r6, r7, r8, r9, r10, r11, r12, r13, r14], pm2)

/-- TradeValidator.validate_trade: early failure when market data cannot be
fetched (md = none models the failed fetch), else evaluate the full checks
list and return the first failing result, or the all-passed success. -/
def validateTrade (c : Config) (clk : Clock) (t : TradeEvent)
    (their_net_worth : ℚ) (md : Option MarketData) (pm : PMState) :
    Except Unit (ValidationResult × PMState) :=
  match md with
  | none => Except.ok (⟨false, Reason.couldNotFetchMarketData⟩, pm)
  | some md => do
      let (rs, pm2) ← evalChecks c clk t their_net_worth md pm
      Except.ok ((rs.find? (fun r => !r.passed)).getD ⟨true, Reason.allChecksPassed⟩, pm2)

/-! ### RiskManager (src/trader/risk_manager.py) -/

/-- Mutable state of RiskManager: the latch flag and the recorded reason. -/
structure RMState where
  circuit_breaker_active : Bool
  circuit_breaker_reason : String
  deriving Repr, DecidableEq

/-- RiskManager state right after construction. -/
def initRM : RMState := ⟨false, ""⟩

/-- RiskManager.trigger_circuit_breaker. -/
def triggerCircuitBreaker (_ : RMState) (reason : String) : RMState :=
  ⟨true, reason⟩

/-- RiskManager.reset_circuit_breaker (the manual operator reset). -/
def resetCircuitBreaker (_ : RMState) : RMState := ⟨false, ""⟩

/-- RiskManager._check_daily_loss_limit: run update_daily_stats, then pass
when net worth is non-positive or the daily PnL percentage is at least the
negated limit.  Returns the check outcome and the updated portfolio state. -/
def rmCheckDailyLossLimit (c : Config) (clk : Clock) (pm : PMState) :
    Bool × PMState :=
  let pm1 := updateDailyStats clk pm
  let net_worth := getNetWorth pm1
  (if net_worth ≤ 0 then true
   else decide (pm1.daily_pnl / net_worth * 100 ≥ -c.daily_loss_limit_pct), pm1)

/-- RiskManager._check_drawdown_limit: run update_drawdown, then pass when
the recomputed drawdown is within the configured maximum. -/
def rmCheckDrawdownLimit (c : Config) (pm : PMState) :
    Except Unit (Bool × PMState) := do
  let pm2 ← updateDrawdown pm
  Except.ok (decide (pm2.current_drawdown_pct ≤ c.max_drawdown_pct), pm2)

/-- RiskManager.check_circuit_breakers: immediate false when already
tripped; else daily-loss breach first, then drawdown breach, the first
breach latching the breaker with its reason and returning false; true
when neither breaches.  Returns the verdict, the risk state and the
portfolio state. -/
def checkCircuitBreakers (c : Config) (clk : Clock) (rm : RMState)
    (pm : PMState) : Except Unit (Bool × RMState × PMState) :=
  if rm.circuit_breaker_active then Except.ok (false, rm, pm)
  else
    match rmCheckDailyLossLimit c clk pm with
    | (ok1, pm1) =>
      if !ok1 then
        Except.ok (false, triggerCircuitBreaker rm "Daily loss limit exceeded", pm1)
      else do
        let (ok2, pm2) ← rmCheckDrawdownLimit c pm1
        if !ok2 then
          Except.ok (false, triggerCircuitBreaker rm "Maximum drawdown exceeded", pm2)
        else Except.ok (true, rm, pm2)

/-- The operations of the RiskManager interface other than the manual
reset: check_circuit_breakers (at some clock), trigger_circuit_breaker,
and the read-only get_risk_stats. -/
inductive RMOp where
  | check (clk : Clock)
  | trigger (reason : String)
  | getStats
  deriving Repr, DecidableEq

/-- Apply a non-reset RiskManager operation to the paired risk and
portfolio states. -/
def applyRMOp (c : Config) (rm : RMState) (pm : PMState) :
    RMOp → Except Unit (RMState × PMState)
  | RMOp.check clk => do
      let r ← checkCircuitBreakers c clk rm pm
      Except.ok (r.2.1, r.2.2)
  | RMOp.trigger reason => Except.ok (triggerCircuitBreaker rm reason, pm)
  | RMOp.getStats => Except.ok (rm, pm)

/-! ### Concrete inputs used by witnesses and counterexamples -/

/-- A trade by the tracked address, transaction hash h, timestamp 10. -/
def evA : TradeEvent :=
  ⟨"t", "BUY", "tok", "c1", 1, 1/2, 10, "Yes", "m", "h"⟩

/-- A second delivery of transaction hash h (stream replay), timestamp 20. -/
def evB : TradeEvent :=
  ⟨"t", "BUY", "tok", "c1", 1, 1/2, 20, "Yes", "m", "h"⟩

/-- A fresh transaction hash h2 with a timestamp behind the watermark. -/
def evC : TradeEvent :=
  ⟨"t", "SELL", "tok", "c1", 1, 1/2, 5, "Yes", "m", "h2"⟩

/-- Pairwise-distinct transaction hashes: n repetitions of the letter a. -/
def aStr (n : ℕ) : String := String.mk (List.replicate n 'a')

/-- The n-th of a stream of all-distinct, strictly-later trades. -/
def mkEv (n : ℕ) : TradeEvent :=
  ⟨"t", "BUY", "tok", "c1", 1, 1/2, (n : ℤ) + 1, "Yes", "m", aStr n⟩

/-- n polling deliveries of all-distinct, strictly-later trades. -/
def mkSteps (n : ℕ) : List (Src × TradeEvent) :=
  (List.range n).map (fun k => (Src.poll, mkEv k))

/-- A freshly initialized portfolio with a 10000 USD bankroll: net worth
10000, no positions, no PnL, high-water mark 10000. -/
def pmTenK : PMState :=
  ⟨[], 10000, 0, 0, 0, 0, 10000, 0, [], 0⟩

/-- The 10000 USD portfolio with a daily PnL of exactly -500 USD: the daily
loss percentage sits exactly on the -5 percent limit. -/
def pmDailyEdge : PMState :=
  ⟨[], 10000, 0, 0, -500, 0, 10000, 0, [], 0⟩

/-- A wall clock on the same calendar date as the reset markers above. -/
def clk0 : Clock := ⟨0, 100⟩

/-- A risk-manager state whose breaker is latched. -/
def rmTripped : RMState := ⟨true, "Daily loss limit exceeded"⟩

/-- An open, liquid market snapshot listing the traded token at price 0.5. -/
def mdA : MarketData := ⟨false, none, 10000, [("tok", 1/2)]⟩

/-- A trade with price 0: it fails the price-sanity range check, and its
price is the divisor of the edge and price-movement computations. -/
def tZero : TradeEvent := ⟨"t", "BUY", "tok", "c1", 10, 0, 90, "Yes", "m", "hz"⟩

/-- A trade at price 0.005: below min_price, so price sanity fails, while
the price is still a legal (nonzero) divisor. -/
def tBadPrice : TradeEvent := ⟨"t", "BUY", "tok", "c1", 10, 1/200, 90, "Yes", "m", "hb"⟩

/-- A portfolio 50 percent below its high-water mark: capital 100 against a
peak of 200, with a currently stale drawdown figure of 0. -/
def pmPeak200 : PMState := ⟨[], 100, 0, 0, 0, 0, 200, 0, [], 0⟩

/-! ### Trade monitor lemmas -/

/-- Neither delivery path ever removes a transaction hash from the seen set. -/
theorem seen_mono_step (s : MonState) (p : Src × TradeEvent) :
    s.seen_tx_hashes ⊆ ((monStep s p).1).seen_tx_hashes := by
  obtain ⟨src, e⟩ := p
  cases src <;> simp only [monStep, onWsMessage, onPollRecord] <;>
    split <;> (try split) <;> simp [List.subset_cons_of_subset, List.Subset.refl]

/-- A delivery whose transaction hash is already in the seen set never fires
the callback, on either path. -/
theorem monStep_not_fired_of_mem (s : MonState) (src : Src) (e : TradeEvent)
    (h : e.transaction_hash ∈ s.seen_tx_hashes) :
    (monStep s (src, e)).2 = false := by
  cases src <;> simp only [monStep, onWsMessage, onPollRecord] <;>
    split <;> simp_all

/-- A delivery that fires the callback leaves its transaction hash in the
seen set. -/
theorem monStep_mem_of_fired (s : MonState) (src : Src) (e : TradeEvent)
    (h : (monStep s (src, e)).2 = true) :
    e.transaction_hash ∈ ((monStep s (src, e)).1).seen_tx_hashes := by
  cases src with
  | ws =>
      by_cases hc : e.trader_address ≠ "" ∧ e.trader_address = s.target
      · by_cases hm : e.transaction_hash ∈ s.seen_tx_hashes
        · simp [monStep, onWsMessage, hc, hm] at h
        · obtain ⟨hne, heq⟩ := hc
          rw [heq] at hne
          simp [monStep, onWsMessage, heq, hne, hm]
      · simp [monStep, onWsMessage, hc] at h
  | poll =>
      by_cases hm : e.transaction_hash ∈ s.seen_tx_hashes
      · simp [monStep, onPollRecord, hm] at h
      · by_cases hts : e.timestamp ≤ s.last_trade_timestamp
        · simp [monStep, onPollRecord, hm, hts] at h
        · simp [monStep, onPollRecord, hm, hts]

/-- Once a transaction hash is in the seen set, no later delivery carrying
that hash ever fires the callback. -/
theorem runFired_suppressed (steps : List (Src × TradeEvent)) (s : MonState)
    (k : ℕ) (p : Src × TradeEvent)
    (hk : steps[k]? = some p) (hmem : p.2.transaction_hash ∈ s.seen_tx_hashes) :
    (runFired s steps)[k]? = some false := by
  induction steps generalizing s k with
  | nil => simp at hk
  | cons q qs ih =>
      cases k with
      | zero =>
          simp only [List.getElem?_cons_zero, Option.some_inj] at hk
          subst hk
          simp only [runFired, List.getElem?_cons_zero, Option.some_inj]
          exact monStep_not_fired_of_mem s q.1 q.2 hmem
      | succ k =>
          simp only [List.getElem?_cons_succ] at hk
          simp only [runFired, List.getElem?_cons_succ]
          exact ih (monStep s q).1 k hk (seen_mono_step s q hmem)

/-- The length of the fired-flags list equals the number of deliveries. -/
theorem runFired_length (s : MonState) (steps : List (Src × TradeEvent)) :
    (runFired s steps).length = steps.length := by
  induction steps generalizing s with
  | nil => rfl
  | cons q qs ih => simp [runFired, ih]

/-- runMon distributes over list append. -/
theorem runMon_append (s : MonState) (l1 l2 : List (Src × TradeEvent)) :
    runMon s (l1 ++ l2) = runMon (runMon s l1) l2 := by
  induction l1 generalizing s with
  | nil => rfl
  | cons q qs ih => simp [runMon, ih]

/-- aStr produces pairwise-distinct hashes. -/
theorem aStr_injective : Function.Injective aStr := by
  intro m n h
  have hd : (aStr m).data = (aStr n).data := by rw [h]
  simpa [aStr] using congrArg List.length hd

/-- Running the monitor over n all-distinct strictly-later polling
deliveries accepts every one: the seen set holds all n hashes and the
watermark sits at the last timestamp. -/
theorem runMon_mkSteps (n : ℕ) :
    runMon (initMon "t") (mkSteps n) =
      { target := "t",
        seen_tx_hashes := (List.range n).reverse.map aStr,
        last_trade_timestamp := (n : ℤ) } := by
  induction n with
  | zero => rfl
  | succ n ih =>
      have hsteps : mkSteps (n + 1) = mkSteps n ++ [(Src.poll, mkEv n)] := by
        simp [mkSteps, List.range_succ]
      rw [hsteps, runMon_append, ih]
      have hnotmem : ¬ ∃ a, a < n ∧ aStr a = aStr n := by
        rintro ⟨k, hk, hak⟩
        exact absurd (aStr_injective hak) (by omega)
      have hts : ¬ ((n : ℤ) + 1 ≤ (n : ℤ)) := by omega
      simp [runMon, monStep, onPollRecord, mkEv, hnotmem, hts, List.range_succ,
        List.map_reverse]

/-! ### Claim theorems: trade monitor -/

/-- C1: in any delivery sequence, mixing the websocket and polling paths in
any order, once the callback has fired for a transaction identifier it never
fires again for a later delivery carrying the same identifier: membership in
seen_tx_hashes suppresses every later delivery of that identifier. -/
theorem tradeCallback_at_most_once_per_tx (s : MonState)
    (steps : List (Src × TradeEvent)) (i j : ℕ) (ei ej : Src × TradeEvent)
    (hij : i < j) (hi : steps[i]? = some ei) (hj : steps[j]? = some ej)
    (htx : ei.2.transaction_hash = ej.2.transaction_hash)
    (hfired : (runFired s steps)[i]? = some true) :
    (runFired s steps)[j]? = some false := by
  induction steps generalizing s i j with
  | nil => simp at hi
  | cons q qs ih =>
      cases i with
      | zero =>
          simp only [List.getElem?_cons_zero, Option.some_inj] at hi
          subst hi
          simp only [runFired, List.getElem?_cons_zero, Option.some_inj] at hfired
          obtain ⟨j1, rfl⟩ : ∃ j1, j = j1 + 1 := ⟨j - 1, by omega⟩
          simp only [List.getElem?_cons_succ] at hj
          simp only [runFired, List.getElem?_cons_succ]
          refine runFired_suppressed qs (monStep s q).1 j1 ej hj ?_
          have := monStep_mem_of_fired s q.1 q.2 (by simpa using hfired)
          rw [htx] at this
          simpa using this
      | succ i1 =>
          obtain ⟨j1, rfl⟩ : ∃ j1, j = j1 + 1 := ⟨j - 1, by omega⟩
          simp only [List.getElem?_cons_succ] at hi hj
          simp only [runFired, List.getElem?_cons_succ] at hfired ⊢
          exact ih (monStep s q).1 i1 j1 (by omega) hi hj hfired

/-- Witness for C1: with the hash h accepted first by the polling path, a
websocket replay of the same hash is suppressed. -/
theorem tradeCallback_at_most_once_per_tx_witness :
    (0 < 1 ∧ [(Src.poll, evA), (Src.ws, evB)][0]? = some (Src.poll, evA) ∧
      (runFired (initMon "t") [(Src.poll, evA), (Src.ws, evB)])[0]? = some true) ∧
    (runFired (initMon "t") [(Src.poll, evA), (Src.ws, evB)])[1]? = some false :=
  ⟨⟨by decide, rfl, by decide⟩,
    tradeCallback_at_most_once_per_tx (initMon "t")
      [(Src.poll, evA), (Src.ws, evB)] 0 1 (Src.poll, evA) (Src.ws, evB)
      (by decide) rfl rfl (by decide) (by decide)⟩

/-- Counterexample to C2: after the polling path accepts a trade at
timestamp 10 (watermark 10), a websocket delivery of a fresh hash with
timestamp 5 — at or below the watermark — still fires the callback: the
websocket handler performs no watermark comparison. -/
theorem ws_event_below_watermark_fires :
    (monStep (monStep (initMon "t") (Src.poll, evA)).1 (Src.ws, evC)).2 = true ∧
    evC.timestamp ≤ (monStep (initMon "t") (Src.poll, evA)).1.last_trade_timestamp := by
  constructor <;> decide

/-- C2 (amended): only the polling path enforces the watermark: a polled
record whose timestamp is at or below last_trade_timestamp never fires the
callback; the websocket path checks only the seen set, so the guarantee
does not hold there. -/
theorem poll_watermark_suppresses (s : MonState) (e : TradeEvent)
    (h : e.timestamp ≤ s.last_trade_timestamp) :
    (monStep s (Src.poll, e)).2 = false := by
  by_cases hm : e.transaction_hash ∈ s.seen_tx_hashes
  · simp [monStep, onPollRecord, hm]
  · simp [monStep, onPollRecord, hm, h]

/-- Witness for the amended C2: a polled record at timestamp 10 against a
watermark of 20 is dropped. -/
theorem poll_watermark_suppresses_witness :
    evA.timestamp ≤ (MonState.mk "t" [] 20).last_trade_timestamp ∧
    (monStep (MonState.mk "t" [] 20) (Src.poll, evA)).2 = false :=
  ⟨by decide, poll_watermark_suppresses (MonState.mk "t" [] 20) evA (by decide)⟩

/-- Counterexample to C8: the deduplication set is not bounded: for every
proposed bound there is a delivery sequence (all-distinct fresh trades)
after which seen_tx_hashes is strictly larger — the code contains no
pruning whatsoever. -/
theorem seen_set_not_bounded :
    ¬ ∃ B : ℕ, ∀ steps : List (Src × TradeEvent),
        ((runMon (initMon "t") steps).seen_tx_hashes).length ≤ B := by
  rintro ⟨B, h⟩
  have h2 := h (mkSteps (B + 1))
  rw [runMon_mkSteps] at h2
  simp at h2

/-- C8 (amended): seen_tx_hashes is never pruned: no delivery ever removes
an identifier (so, a fortiori, no identifier the watermark could re-deliver
is ever evicted), and the set grows without bound — after n distinct
accepted trades it holds exactly n identifiers. -/
theorem seen_set_never_pruned :
    (∀ (s : MonState) (steps : List (Src × TradeEvent)),
        s.seen_tx_hashes ⊆ (runMon s steps).seen_tx_hashes) ∧
    (∀ n : ℕ, ((runMon (initMon "t") (mkSteps n)).seen_tx_hashes).length = n) := by
  constructor
  · intro s steps
    induction steps generalizing s with
    | nil => exact List.Subset.refl _
    | cons q qs ih =>
        exact fun a ha => ih (monStep s q).1 (seen_mono_step s q ha)
  · intro n
    rw [runMon_mkSteps]
    simp

/-- Witness for the amended C8: a hash present in the seen set is still
there after further deliveries, and three distinct accepted trades leave
three identifiers in the set. -/
theorem seen_set_never_pruned_witness :
    "h" ∈ (runMon (MonState.mk "t" ["h"] 0) [(Src.poll, evC)]).seen_tx_hashes ∧
    ((runMon (initMon "t") (mkSteps 3)).seen_tx_hashes).length = 3 :=
  ⟨seen_set_never_pruned.1 (MonState.mk "t" ["h"] 0) [(Src.poll, evC)]
      (by decide),
    seen_set_never_pruned.2 3⟩

/-! ### Rounding lemmas -/

/-- Half-even rounding never falls below the floor. -/
theorem floor_le_roundHalfEven (x : ℚ) : ⌊x⌋ ≤ roundHalfEven x := by
  simp only [roundHalfEven]
  split
  · exact le_refl _
  · split
    · omega
    · split <;> omega

/-- Half-even rounding stays within any integer upper bound of its input. -/
theorem roundHalfEven_le_of_le_int (x : ℚ) (n : ℤ) (h : x ≤ (n : ℚ)) :
    roundHalfEven x ≤ n := by
  have hfl : ⌊x⌋ ≤ n := by
    have := Int.floor_le_floor h
    simpa using this
  have hlt : (1:ℚ)/2 ≤ x - (⌊x⌋ : ℚ) → ⌊x⌋ + 1 ≤ n := by
    intro hr
    have hx : (⌊x⌋ : ℚ) < x := by linarith
    have : ⌊x⌋ < n := by
      have : (⌊x⌋ : ℚ) < (n : ℚ) := lt_of_lt_of_le hx h
      exact_mod_cast this
    omega
  simp only [roundHalfEven]
  split
  · exact hfl
  · rename_i h1
    split
    · rename_i h2
      exact hlt (le_of_lt h2)
    · rename_i h2
      have hr : (1:ℚ)/2 ≤ x - (⌊x⌋ : ℚ) := le_of_not_lt h1
      split
      · exact hfl
      · exact hlt hr

/-- Half-even rounding moves its input by at most one half. -/
theorem abs_roundHalfEven_sub_le (x : ℚ) : |(roundHalfEven x : ℚ) - x| ≤ 1/2 := by
  have h0 : (0:ℚ) ≤ x - (⌊x⌋ : ℚ) := by
    have := Int.floor_le x
    linarith
  have h1 : x - (⌊x⌋ : ℚ) < 1 := by
    have := Int.lt_floor_add_one x
    linarith
  simp only [roundHalfEven]
  split
  · rename_i h2
    rw [abs_sub_comm, abs_of_nonneg h0]
    linarith
  · rename_i h2
    have hr : (1:ℚ)/2 ≤ x - (⌊x⌋ : ℚ) := le_of_not_lt h2
    split
    · rename_i h3
      push_cast
      rw [abs_of_nonneg (by linarith)]
      linarith
    · rename_i h3
      split <;>
        ( first
          | ( rw [abs_sub_comm, abs_of_nonneg (by linarith)]
              linarith )
          | ( push_cast
              rw [abs_of_nonneg (by linarith)]
              linarith ) )

/-- round2 stays within any whole-cent upper bound of its input. -/
theorem round2_le_of_le (x : ℚ) (n : ℤ) (h : x ≤ (n : ℚ) / 100) :
    round2 x ≤ (n : ℚ) / 100 := by
  have h1 : 100 * x ≤ (n : ℚ) := by linarith
  have h2 := roundHalfEven_le_of_le_int (100 * x) n h1
  unfold round2
  have : ((roundHalfEven (100 * x) : ℤ) : ℚ) ≤ (n : ℚ) := by exact_mod_cast h2
  linarith

/-- round2 of a non-negative rational is non-negative. -/
theorem round2_nonneg (x : ℚ) (h : 0 ≤ x) : 0 ≤ round2 x := by
  have h1 : (0:ℤ) ≤ ⌊100 * x⌋ := Int.floor_nonneg.mpr (by linarith)
  have h2 := floor_le_roundHalfEven (100 * x)
  unfold round2
  have : (0:ℚ) ≤ ((roundHalfEven (100 * x) : ℤ) : ℚ) := by exact_mod_cast le_trans h1 h2
  linarith

/-- round2 moves its input by at most half a cent. -/
theorem abs_round2_sub_le (x : ℚ) : |round2 x - x| ≤ 1/200 := by
  have := abs_roundHalfEven_sub_le (100 * x)
  unfold round2
  have hrw : (roundHalfEven (100 * x) : ℚ) / 100 - x =
      ((roundHalfEven (100 * x) : ℚ) - 100 * x) / 100 := by ring
  rw [hrw, abs_div, abs_of_pos (by norm_num : (0:ℚ) < 100)]
  linarith

/-! ### Claim theorems: position sizer -/

/-- Counterexample to C3: with both net worths positive (ours 10000, theirs
10000) and a tiny copied bet of 0.0001 USD, the sizer clamps up to the
minimum bet of 0.001 USD but the final rounding to cents returns 0.0,
strictly below min_bet_size_usd — the output is not within the configured
[min, max] interval. -/
theorem positionSize_below_min_cex :
    calculatePositionSize defaultConfig pmTenK (1/10000) 10000 = 0 ∧
    (0:ℚ) < defaultConfig.min_bet_size_usd ∧
    (0:ℚ) < getNetWorth pmTenK ∧ (0:ℚ) < 10000 := by
  refine ⟨?_, by norm_num [defaultConfig], by norm_num [getNetWorth, pmTenK], by norm_num⟩
  norm_num [calculatePositionSize, getNetWorth, pmTenK, defaultConfig,
    round2, roundHalfEven, min_def, max_def]

/-- C3 (amended): the sizer returns 0 whenever either net worth is
non-positive; otherwise it returns the whole-cent rounding of a clamped
value z with min(min_bet_size_usd, pctCap) ≤ z ≤ min(max_bet_size_usd,
pctCap), where pctCap is max_bet_pct_portfolio percent of our net worth.
The result can therefore undershoot min_bet_size_usd (when pctCap binds
below it, or by rounding down, as low as 0) and can exceed pctCap by at
most half a cent; it never exceeds a whole-cent max_bet_size_usd and is
non-negative whenever the lower clamp is. -/
theorem positionSize_bounds (c : Config) (pm : PMState) (tb tnw : ℚ)
    (hmm : c.min_bet_size_usd ≤ c.max_bet_size_usd) :
    (tnw ≤ 0 ∨ getNetWorth pm ≤ 0 → calculatePositionSize c pm tb tnw = 0) ∧
    (0 < tnw → 0 < getNetWorth pm →
      ∃ z : ℚ,
        calculatePositionSize c pm tb tnw = round2 z ∧
        min c.min_bet_size_usd (c.max_bet_pct_portfolio / 100 * getNetWorth pm) ≤ z ∧
        z ≤ c.max_bet_size_usd ∧
        z ≤ c.max_bet_pct_portfolio / 100 * getNetWorth pm ∧
        |calculatePositionSize c pm tb tnw - z| ≤ 1/200 ∧
        (0 ≤ min c.min_bet_size_usd (c.max_bet_pct_portfolio / 100 * getNetWorth pm) →
          0 ≤ calculatePositionSize c pm tb tnw) ∧
        (∀ n : ℤ, c.max_bet_size_usd = (n : ℚ) / 100 →
          calculatePositionSize c pm tb tnw ≤ c.max_bet_size_usd)) := by
  constructor
  · intro h
    simp only [calculatePositionSize]
    rw [if_pos h]
  · intro h1 h2
    have hguard : ¬ (tnw ≤ 0 ∨ getNetWorth pm ≤ 0) := by
      push_neg
      exact ⟨h1, h2⟩
    have hres : calculatePositionSize c pm tb tnw =
        round2 (min (min (max (min (tb / tnw * 100) (c.max_kelly_fraction * 100)
          / 100 * getNetWorth pm) c.min_bet_size_usd) c.max_bet_size_usd)
          (c.max_bet_pct_portfolio / 100 * getNetWorth pm)) := by
      simp only [calculatePositionSize]
      rw [if_neg hguard]
    have hA : c.min_bet_size_usd ≤
        min (max (min (tb / tnw * 100) (c.max_kelly_fraction * 100)
          / 100 * getNetWorth pm) c.min_bet_size_usd) c.max_bet_size_usd :=
      le_min (le_max_right _ _) hmm
    have hlow : min c.min_bet_size_usd (c.max_bet_pct_portfolio / 100 * getNetWorth pm) ≤
        min (min (max (min (tb / tnw * 100) (c.max_kelly_fraction * 100)
          / 100 * getNetWorth pm) c.min_bet_size_usd) c.max_bet_size_usd)
          (c.max_bet_pct_portfolio / 100 * getNetWorth pm) :=
      min_le_min hA (le_refl _)
    have hup : min (min (max (min (tb / tnw * 100) (c.max_kelly_fraction * 100)
          / 100 * getNetWorth pm) c.min_bet_size_usd) c.max_bet_size_usd)
          (c.max_bet_pct_portfolio / 100 * getNetWorth pm) ≤ c.max_bet_size_usd :=
      le_trans (min_le_left _ _) (min_le_right _ _)
    refine ⟨_, hres, hlow, hup, min_le_right _ _, ?_, ?_, ?_⟩
    · rw [hres]
      exact abs_round2_sub_le _
    · intro h0
      rw [hres]
      exact round2_nonneg _ (le_trans h0 hlow)
    · intro n hn
      rw [hres, hn]
      exact round2_le_of_le _ n (hn ▸ hup)

/-- Witness for the amended C3: instantiated at the spec scenario (their
500 USD bet on a 50000 USD bankroll against our 10000 USD portfolio). -/
theorem positionSize_bounds_witness :
    defaultConfig.min_bet_size_usd ≤ defaultConfig.max_bet_size_usd ∧
    ((50000:ℚ) ≤ 0 ∨ getNetWorth pmTenK ≤ 0 →
      calculatePositionSize defaultConfig pmTenK 500 50000 = 0) :=
  ⟨by norm_num [defaultConfig],
    (positionSize_bounds defaultConfig pmTenK 500 50000
      (by norm_num [defaultConfig])).1⟩

/-! ### Portfolio and risk-manager lemmas -/

/-- update_daily_stats touches only daily_pnl and the reset marker, so net
worth is unchanged. -/
theorem getNetWorth_updateDailyStats (clk : Clock) (pm : PMState) :
    getNetWorth (updateDailyStats clk pm) = getNetWorth pm := by
  simp only [updateDailyStats, getNetWorth]
  split <;> rfl

/-- update_daily_stats leaves the high-water mark unchanged. -/
theorem peak_updateDailyStats (clk : Clock) (pm : PMState) :
    (updateDailyStats clk pm).peak_net_worth = pm.peak_net_worth := by
  simp only [updateDailyStats]
  split <;> rfl

/-- With a positive high-water mark, update_drawdown cannot raise. -/
theorem updateDrawdown_ok (pm : PMState) (h : 0 < pm.peak_net_worth) :
    ∃ pm2, updateDrawdown pm = Except.ok pm2 := by
  simp only [updateDrawdown]
  split
  · exact ⟨_, rfl⟩
  · rw [if_neg (ne_of_gt h)]
    exact ⟨_, rfl⟩

/-- With the breaker not latched, a positive net worth and a daily PnL
percentage strictly below the negated limit, check_circuit_breakers trips
the daily-loss breaker: it returns false, latches the reason, and hands
back the portfolio state as left by update_daily_stats. -/
theorem checkCircuitBreakers_daily_trip (c : Config) (clk : Clock)
    (rm : RMState) (pm : PMState)
    (hn : rm.circuit_breaker_active = false)
    (hnwpos : 0 < getNetWorth (updateDailyStats clk pm))
    (hlt : (updateDailyStats clk pm).daily_pnl /
        getNetWorth (updateDailyStats clk pm) * 100 < -c.daily_loss_limit_pct) :
    checkCircuitBreakers c clk rm pm =
      Except.ok (false, RMState.mk true "Daily loss limit exceeded",
        updateDailyStats clk pm) := by
  simp only [checkCircuitBreakers, rmCheckDailyLossLimit, hn, Bool.false_eq_true,
    if_false, triggerCircuitBreaker]
  rw [if_neg (not_le.mpr hnwpos)]
  simp [not_le.mpr hlt]

/-- recordTrades subtracts the summed notionals from daily_pnl. -/
theorem recordTrades_daily_pnl (pm : PMState) (l : List (ℤ × ℚ × ℚ)) :
    (recordTrades pm l).daily_pnl =
      pm.daily_pnl - (l.map (fun x => x.2.1 * x.2.2)).sum := by
  induction l generalizing pm with
  | nil => simp [recordTrades]
  | cons x xs ih =>
      simp only [recordTrades, List.foldl_cons, List.map_cons, List.sum_cons]
      have := ih (recordTrade pm x.1 x.2.1 x.2.2)
      simp only [recordTrades] at this
      rw [this]
      simp [recordTrade]
      ring

/-- recordTrades leaves net worth unchanged. -/
theorem recordTrades_netWorth (pm : PMState) (l : List (ℤ × ℚ × ℚ)) :
    getNetWorth (recordTrades pm l) = getNetWorth pm := by
  induction l generalizing pm with
  | nil => rfl
  | cons x xs ih =>
      simp only [recordTrades, List.foldl_cons]
      have := ih (recordTrade pm x.1 x.2.1 x.2.2)
      simp only [recordTrades] at this
      rw [this]
      rfl

/-- recordTrades leaves the daily reset marker unchanged. -/
theorem recordTrades_resetDate (pm : PMState) (l : List (ℤ × ℚ × ℚ)) :
    (recordTrades pm l).daily_reset_date = pm.daily_reset_date := by
  induction l generalizing pm with
  | nil => rfl
  | cons x xs ih =>
      simp only [recordTrades, List.foldl_cons]
      have := ih (recordTrade pm x.1 x.2.1 x.2.2)
      simp only [recordTrades] at this
      rw [this]
      rfl

/-- update_daily_stats is the identity when the date has not advanced. -/
theorem updateDailyStats_noop (clk : Clock) (pm : PMState)
    (h : clk.date ≤ pm.daily_reset_date) : updateDailyStats clk pm = pm := by
  simp only [updateDailyStats]
  rw [if_neg (not_lt.mpr h)]

/-! ### Claim theorems: risk manager and portfolio -/

/-- C7: once latched, check_circuit_breakers returns false immediately with
both states untouched (no metric re-evaluation, no side effects); no
RiskManager operation other than the manual reset ever clears the latch,
and the manual reset does clear it. -/
theorem trippedBreaker_latched (c : Config) (clk : Clock) (rm : RMState)
    (pm : PMState) (h : rm.circuit_breaker_active = true) :
    checkCircuitBreakers c clk rm pm = Except.ok (false, rm, pm) ∧
    (∀ (op : RMOp) (rm2 : RMState) (pm2 : PMState),
        applyRMOp c rm pm op = Except.ok (rm2, pm2) →
        rm2.circuit_breaker_active = true) ∧
    (resetCircuitBreaker rm).circuit_breaker_active = false := by
  refine ⟨by simp [checkCircuitBreakers, h], ?_, rfl⟩
  intro op rm2 pm2 hop
  cases op with
  | check clk2 =>
      simp [applyRMOp, checkCircuitBreakers, h, Bind.bind, Except.bind] at hop
      rw [← hop.1]
      exact h
  | trigger r =>
      simp [applyRMOp, triggerCircuitBreaker] at hop
      rw [← hop.1]
  | getStats =>
      simp [applyRMOp] at hop
      rw [← hop.1]
      exact h

/-- Witness for C7: a latched breaker stays latched and keeps answering
false, at a concrete tripped state. -/
theorem trippedBreaker_latched_witness :
    rmTripped.circuit_breaker_active = true ∧
    checkCircuitBreakers defaultConfig clk0 rmTripped pmTenK =
      Except.ok (false, rmTripped, pmTenK) :=
  ⟨rfl, (trippedBreaker_latched defaultConfig clk0 rmTripped pmTenK rfl).1⟩

/-- C10: with a positive high-water mark, update_drawdown succeeds, never
lowers the mark (so positivity of the mark is preserved, as it is by
update_daily_stats, record_trade and add_position, which do not touch it),
and reports zero drawdown whenever net worth is at or above the mark; with
a zero mark and non-positive net worth it raises ZeroDivisionError — in
particular on the freshly constructed state, where initialize has not yet
run. -/
theorem updateDrawdown_safety :
    (∀ pm : PMState, 0 < pm.peak_net_worth →
      ∃ pm2, updateDrawdown pm = Except.ok pm2 ∧
        pm.peak_net_worth ≤ pm2.peak_net_worth ∧ 0 < pm2.peak_net_worth ∧
        (pm.peak_net_worth ≤ getNetWorth pm → pm2.current_drawdown_pct = 0)) ∧
    (∀ (pm : PMState) (clk : Clock),
        (updateDailyStats clk pm).peak_net_worth = pm.peak_net_worth) ∧
    (∀ (pm : PMState) (t : ℤ) (sz p : ℚ),
        (recordTrade pm t sz p).peak_net_worth = pm.peak_net_worth) ∧
    (∀ (pm : PMState) (cid a sd : String) (sz p : ℚ) (pm2 : PMState),
        addPosition pm cid a sd sz p = Except.ok pm2 →
        pm2.peak_net_worth = pm.peak_net_worth) ∧
    (∀ pm : PMState, pm.peak_net_worth = 0 → getNetWorth pm ≤ 0 →
        updateDrawdown pm = Except.error ()) ∧
    (∀ d : ℤ, updateDrawdown (initState d) = Except.error ()) := by
  refine ⟨?_, fun pm clk => peak_updateDailyStats clk pm, ?_, ?_, ?_, ?_⟩
  · intro pm h
    by_cases hgt : getNetWorth pm > pm.peak_net_worth
    · refine ⟨_, by simp only [updateDrawdown]; rw [if_pos hgt], ?_, ?_, ?_⟩
      · exact le_of_lt hgt
      · exact lt_trans h hgt
      · intro _
        rfl
    · have hne : pm.peak_net_worth ≠ 0 := ne_of_gt h
      refine ⟨_, by simp only [updateDrawdown]; rw [if_neg hgt, if_neg hne], ?_, ?_, ?_⟩
      · exact le_refl _
      · exact h
      · intro hge
        have heq : getNetWorth pm = pm.peak_net_worth :=
          le_antisymm (not_lt.mp hgt) hge
        simp [heq]
  · intro pm t sz p
    rfl
  · intro pm cid a sd sz p pm2 hok
    simp only [addPosition] at hok
    split at hok
    · split at hok
      · exact absurd hok (by simp)
      · rw [← (Except.ok.injEq _ _).mp hok]
    · rw [← (Except.ok.injEq _ _).mp hok]
  · intro pm h0 hnw
    simp only [updateDrawdown]
    rw [if_neg (by rw [h0]; exact not_lt.mpr hnw), if_pos h0]
  · intro d
    have : updateDrawdown (initState d) = Except.error () := by
      simp only [updateDrawdown, getNetWorth, initState]
      norm_num
    exact this

/-- Witness for C10: the freshly initialized 10000 USD portfolio has a
positive high-water mark and update_drawdown succeeds on it. -/
theorem updateDrawdown_safety_witness :
    (0:ℚ) < pmTenK.peak_net_worth ∧
    ∃ pm2, updateDrawdown pmTenK = Except.ok pm2 ∧
      pmTenK.peak_net_worth ≤ pm2.peak_net_worth ∧ 0 < pm2.peak_net_worth ∧
      (pmTenK.peak_net_worth ≤ getNetWorth pmTenK → pm2.current_drawdown_pct = 0) :=
  ⟨by norm_num [pmTenK], updateDrawdown_safety.1 pmTenK (by norm_num [pmTenK])⟩

/-- Counterexample to C6: with daily PnL at exactly -5 percent of net worth
(the configured limit), the breaker does NOT trip — the code breaches only
on a strictly smaller percentage, while the claim says "less than or equal"
trips. -/
theorem dailyLoss_at_limit_does_not_trip :
    pmDailyEdge.daily_pnl / getNetWorth pmDailyEdge * 100 = -5 ∧
    defaultConfig.daily_loss_limit_pct = 5 ∧
    initRM.circuit_breaker_active = false ∧
    checkCircuitBreakers defaultConfig clk0 initRM pmDailyEdge =
      Except.ok (true, initRM, pmDailyEdge) := by
  refine ⟨by norm_num [pmDailyEdge, getNetWorth], rfl, rfl, ?_⟩
  norm_num [checkCircuitBreakers, rmCheckDailyLossLimit, rmCheckDrawdownLimit,
    updateDailyStats, updateDrawdown, getNetWorth, pmDailyEdge, initRM,
    defaultConfig, clk0, Bind.bind, Except.bind]

/-- C6 (amended): from the NORMAL state (with a positive high-water mark so
the drawdown update is defined), check_circuit_breakers trips the breaker
exactly when, after the daily reset, net worth is positive and the daily
PnL percentage is STRICTLY below the negated daily loss limit (recording
the daily-loss reason and returning false, daily loss evaluated first), or
else when the recomputed drawdown strictly exceeds the maximum (recording
the drawdown reason); when neither holds it returns true and stays NORMAL.
Daily PnL exactly at the limit does not trip. -/
theorem circuitBreaker_trip_characterization (c : Config) (clk : Clock)
    (rm : RMState) (pm : PMState)
    (hn : rm.circuit_breaker_active = false)
    (hpeak : 0 < pm.peak_net_worth) :
    (0 < getNetWorth (updateDailyStats clk pm) ∧
        (updateDailyStats clk pm).daily_pnl /
          getNetWorth (updateDailyStats clk pm) * 100 < -c.daily_loss_limit_pct →
      checkCircuitBreakers c clk rm pm =
        Except.ok (false, RMState.mk true "Daily loss limit exceeded",
          updateDailyStats clk pm)) ∧
    (¬ (0 < getNetWorth (updateDailyStats clk pm) ∧
        (updateDailyStats clk pm).daily_pnl /
          getNetWorth (updateDailyStats clk pm) * 100 < -c.daily_loss_limit_pct) →
      ∃ pm2, updateDrawdown (updateDailyStats clk pm) = Except.ok pm2 ∧
        (c.max_drawdown_pct < pm2.current_drawdown_pct →
          checkCircuitBreakers c clk rm pm =
            Except.ok (false, RMState.mk true "Maximum drawdown exceeded", pm2)) ∧
        (pm2.current_drawdown_pct ≤ c.max_drawdown_pct →
          checkCircuitBreakers c clk rm pm = Except.ok (true, rm, pm2))) := by
  constructor
  · rintro ⟨h1, h2⟩
    exact checkCircuitBreakers_daily_trip c clk rm pm hn h1 h2
  · intro hnb
    obtain ⟨pm2, hok⟩ := updateDrawdown_ok (updateDailyStats clk pm)
      (by rw [peak_updateDailyStats]; exact hpeak)
    have hok1 : (if getNetWorth (updateDailyStats clk pm) ≤ 0 then true
        else decide ((updateDailyStats clk pm).daily_pnl /
          getNetWorth (updateDailyStats clk pm) * 100 ≥ -c.daily_loss_limit_pct)) = true := by
      by_cases hnw : getNetWorth (updateDailyStats clk pm) ≤ 0
      · simp [hnw]
      · have hge : (updateDailyStats clk pm).daily_pnl /
            getNetWorth (updateDailyStats clk pm) * 100 ≥ -c.daily_loss_limit_pct := by
          by_contra hcon
          exact hnb ⟨not_le.mp hnw, not_le.mp hcon⟩
        simp [hnw, hge]
    refine ⟨pm2, hok, ?_, ?_⟩
    · intro hgt
      simp only [checkCircuitBreakers, rmCheckDailyLossLimit, rmCheckDrawdownLimit,
        hn, Bool.false_eq_true, if_false, hok1, Bool.not_true, hok,
        Bind.bind, Except.bind, triggerCircuitBreaker]
      simp [not_le.mpr hgt]
    · intro hle
      simp only [checkCircuitBreakers, rmCheckDailyLossLimit, rmCheckDrawdownLimit,
        hn, Bool.false_eq_true, if_false, hok1, Bool.not_true, hok,
        Bind.bind, Except.bind, triggerCircuitBreaker]
      simp [hle]

/-- Witness for the amended C6: at the fresh 10000 USD portfolio the
daily-loss-trip implication applies (vacuously satisfiable hypotheses
discharged at the concrete state; here the no-breach branch is exercised
through the first implication's concrete instantiation). -/
theorem circuitBreaker_trip_characterization_witness :
    (initRM.circuit_breaker_active = false ∧ (0:ℚ) < pmTenK.peak_net_worth) ∧
    (0 < getNetWorth (updateDailyStats clk0 pmTenK) ∧
        (updateDailyStats clk0 pmTenK).daily_pnl /
          getNetWorth (updateDailyStats clk0 pmTenK) * 100 <
          -defaultConfig.daily_loss_limit_pct →
      checkCircuitBreakers defaultConfig clk0 initRM pmTenK =
        Except.ok (false, RMState.mk true "Daily loss limit exceeded",
          updateDailyStats clk0 pmTenK)) :=
  ⟨⟨rfl, by norm_num [pmTenK]⟩,
    (circuitBreaker_trip_characterization defaultConfig clk0 initRM pmTenK rfl
      (by norm_num [pmTenK])).1⟩

/-- Counterexample to C9: a recorded trade whose notional is exactly
daily_loss_limit_pct percent of net worth (500 USD on 10000 USD at the
5 percent limit) books daily_pnl = -500 but does NOT trip the breaker:
the breach comparison is strict. -/
theorem notional_at_limit_does_not_trip :
    (recordTrade pmTenK 50 1000 (1/2)).daily_pnl = -500 ∧
    (1000 : ℚ) * (1/2) =
      defaultConfig.daily_loss_limit_pct / 100 * getNetWorth pmTenK ∧
    checkCircuitBreakers defaultConfig clk0 initRM
        (recordTrade pmTenK 50 1000 (1/2)) =
      Except.ok (true, initRM, recordTrade pmTenK 50 1000 (1/2)) := by
  refine ⟨by norm_num [recordTrade, pmTenK],
    by norm_num [defaultConfig, getNetWorth, pmTenK], ?_⟩
  norm_num [checkCircuitBreakers, rmCheckDailyLossLimit, rmCheckDrawdownLimit,
    updateDailyStats, updateDrawdown, getNetWorth, recordTrade, pmTenK, initRM,
    defaultConfig, clk0, Bind.bind, Except.bind]

/-- C9 (amended): record_trade always lowers daily_pnl by the trade's full
notional (size times price); with non-negative notionals daily_pnl is
non-increasing under record_trade, and update_daily_stats leaves it alone
while the UTC date has not advanced; consequently, executed notionals
summing to STRICTLY more than daily_loss_limit_pct percent of net worth
(starting from a non-positive daily PnL) trip the daily-loss breaker on
the next check, even if no position lost value.  Notionals summing to
exactly the limit do not trip it. -/
theorem recordTrade_books_full_notional (c : Config) (pm : PMState) :
    (∀ (t : ℤ) (sz p : ℚ),
      (recordTrade pm t sz p).daily_pnl = pm.daily_pnl - sz * p) ∧
    (∀ l : List (ℤ × ℚ × ℚ), (∀ x ∈ l, 0 ≤ x.2.1 * x.2.2) →
      (recordTrades pm l).daily_pnl ≤ pm.daily_pnl) ∧
    (∀ clk : Clock, clk.date ≤ pm.daily_reset_date →
      updateDailyStats clk pm = pm) ∧
    (∀ (l : List (ℤ × ℚ × ℚ)) (clk : Clock) (rm : RMState),
      rm.circuit_breaker_active = false →
      pm.daily_pnl ≤ 0 →
      clk.date ≤ pm.daily_reset_date →
      0 < getNetWorth pm →
      c.daily_loss_limit_pct / 100 * getNetWorth pm <
        (l.map (fun x => x.2.1 * x.2.2)).sum →
      checkCircuitBreakers c clk rm (recordTrades pm l) =
        Except.ok (false, RMState.mk true "Daily loss limit exceeded",
          recordTrades pm l)) := by
  refine ⟨fun t sz p => rfl, ?_, fun clk h => updateDailyStats_noop clk pm h, ?_⟩
  · intro l hpos
    rw [recordTrades_daily_pnl]
    have hs : 0 ≤ (l.map (fun x => x.2.1 * x.2.2)).sum := by
      refine List.sum_nonneg ?_
      intro y hy
      obtain ⟨x, hx, rfl⟩ := List.mem_map.mp hy
      exact hpos x hx
    linarith
  · intro l clk rm hrm hd0 hclk hnw hsum
    have hud : updateDailyStats clk (recordTrades pm l) = recordTrades pm l :=
      updateDailyStats_noop clk _ (by rw [recordTrades_resetDate]; exact hclk)
    have hnwpos : 0 < getNetWorth (updateDailyStats clk (recordTrades pm l)) := by
      rw [hud, recordTrades_netWorth]
      exact hnw
    have hlt : (updateDailyStats clk (recordTrades pm l)).daily_pnl /
        getNetWorth (updateDailyStats clk (recordTrades pm l)) * 100 <
        -c.daily_loss_limit_pct := by
      rw [hud, recordTrades_netWorth, recordTrades_daily_pnl]
      rw [div_mul_eq_mul_div, div_lt_iff₀ hnw]
      linarith
    have htrip :=
      checkCircuitBreakers_daily_trip c clk rm (recordTrades pm l) hrm hnwpos hlt
    rw [hud] at htrip
    exact htrip

/-- Witness for the amended C9: one recorded trade of notional 600 USD
(strictly above 5 percent of the 10000 USD net worth) trips the daily-loss
breaker. -/
theorem recordTrade_books_full_notional_witness :
    (initRM.circuit_breaker_active = false ∧ pmTenK.daily_pnl ≤ 0 ∧
      clk0.date ≤ pmTenK.daily_reset_date ∧ 0 < getNetWorth pmTenK ∧
      defaultConfig.daily_loss_limit_pct / 100 * getNetWorth pmTenK <
        ([((50:ℤ), (1000:ℚ), (3/5:ℚ))].map (fun x => x.2.1 * x.2.2)).sum) ∧
    checkCircuitBreakers defaultConfig clk0 initRM
        (recordTrades pmTenK [((50:ℤ), (1000:ℚ), (3/5:ℚ))]) =
      Except.ok (false, RMState.mk true "Daily loss limit exceeded",
        recordTrades pmTenK [((50:ℤ), (1000:ℚ), (3/5:ℚ))]) :=
  ⟨⟨rfl, by norm_num [pmTenK], by norm_num [clk0, pmTenK],
      by norm_num [getNetWorth, pmTenK],
      by norm_num [defaultConfig, getNetWorth, pmTenK]⟩,
    (recordTrade_books_full_notional defaultConfig pmTenK).2.2.2
      [((50:ℤ), (1000:ℚ), (3/5:ℚ))] clk0 initRM rfl (by norm_num [pmTenK])
      (by norm_num [clk0, pmTenK]) (by norm_num [getNetWorth, pmTenK])
      (by norm_num [defaultConfig, getNetWorth, pmTenK])⟩

/-! ### Validator lemmas -/

/-- find? returns the element at the first index whose predicate holds:
specialised to the first non-passing validation result. -/
theorem find_first_not_passed (l : List ValidationResult) (i : ℕ)
    (r : ValidationResult) (hi : l[i]? = some r) (hr : r.passed = false)
    (hprev : ∀ j r2, j < i → l[j]? = some r2 → r2.passed = true) :
    l.find? (fun x => !x.passed) = some r := by
  induction l generalizing i with
  | nil => simp at hi
  | cons a as ih =>
      cases i with
      | zero =>
          simp only [List.getElem?_cons_zero, Option.some_inj] at hi
          subst hi
          rw [List.find?_cons_of_pos _ (by simp [hr])]
      | succ i1 =>
          have ha : a.passed = true := hprev 0 a (by omega) (by simp)
          rw [List.find?_cons_of_neg _ (by simp [ha])]
          simp only [List.getElem?_cons_succ] at hi
          exact ih i1 hi (fun j r2 hj h2 => hprev (j + 1) r2 (by omega) (by simpa using h2))

/-- With a nonzero trade price the minimum-edge check cannot raise. -/
theorem checkMinimumEdge_ok (c : Config) (t : TradeEvent) (md : MarketData)
    (hprice : t.price ≠ 0) :
    ∃ r, checkMinimumEdge c t md = Except.ok r := by
  cases hcp : getCurrentPrice md t.asset with
  | none =>
      refine ⟨⟨false, Reason.couldNotGetCurrentPrice⟩, ?_⟩
      simp [checkMinimumEdge, hcp]
  | some cp =>
      simp only [checkMinimumEdge, hcp, hprice, if_false]
      split <;> split <;> exact ⟨_, rfl⟩

/-- With a nonzero trade price the price-movement check cannot raise. -/
theorem checkPriceMovement_ok (c : Config) (t : TradeEvent) (md : MarketData)
    (hprice : t.price ≠ 0) :
    ∃ r, checkPriceMovement c t md = Except.ok r := by
  cases hcp : getCurrentPrice md t.asset with
  | none =>
      refine ⟨⟨false, Reason.couldNotGetCurrentPrice⟩, ?_⟩
      simp [checkPriceMovement, hcp]
  | some cp =>
      simp only [checkPriceMovement, hcp, hprice, if_false]
      split <;> exact ⟨_, rfl⟩

/-- With a nonzero trade price and a positive high-water mark, the eager
checks list evaluates without raising, in the fixed source order, threading
the update_daily_stats and update_drawdown state mutations. -/
theorem evalChecks_ok (c : Config) (clk : Clock) (t : TradeEvent) (tnw : ℚ)
    (md : MarketData) (pm : PMState)
    (hprice : t.price ≠ 0) (hpeak : 0 < pm.peak_net_worth) :
    ∃ (pm2 : PMState) (r12 r14 : ValidationResult),
      updateDrawdown (updateDailyStats clk pm) = Except.ok pm2 ∧
      checkMinimumEdge c t md = Except.ok r12 ∧
      checkPriceMovement c t md = Except.ok r14 ∧
      evalChecks c clk t tnw md pm = Except.ok
        ([checkPriceSanity c t, checkOutcomeMatching, checkDuplicate,
          checkLiquidity md, checkMarketClosing c clk md, checkVolume c md,
          checkSpread, checkTradeAge c clk t, checkRateLimit c clk pm,
          checkDailyLoss c (updateDailyStats clk pm), checkDrawdown c pm2,
          r12, checkPositionLimits c t tnw pm2, r14], pm2) := by
  obtain ⟨pm2, hdd⟩ := updateDrawdown_ok (updateDailyStats clk pm)
    (by rw [peak_updateDailyStats]; exact hpeak)
  obtain ⟨r12, h12⟩ := checkMinimumEdge_ok c t md hprice
  obtain ⟨r14, h14⟩ := checkPriceMovement_ok c t md hprice
  refine ⟨pm2, r12, r14, hdd, h12, h14, ?_⟩
  simp [evalChecks, hdd, h12, h14, Bind.bind, Except.bind]

/-! ### Claim theorems: validation pipeline -/

/-- Counterexample to C4: a zero-price trade fails the price-sanity check,
yet validate_trade does not return that (or any) failure outcome: the eager
checks list evaluates the minimum-edge check, which divides by the trade
price and raises ZeroDivisionError. -/
theorem zero_price_trade_raises :
    validateTrade defaultConfig clk0 tZero 10000 (some mdA) pmTenK =
      Except.error () ∧
    (checkPriceSanity defaultConfig tZero).passed = false := by
  constructor
  · norm_num [validateTrade, evalChecks, checkPriceSanity, checkOutcomeMatching,
      checkDuplicate, checkLiquidity, checkMarketClosing, checkVolume, checkSpread,
      checkTradeAge, checkRateLimit, checkDailyLoss, checkDrawdown,
      checkMinimumEdge, checkPriceMovement, checkPositionLimits, getCurrentPrice,
      updateDailyStats, updateDrawdown, getNetWorth, getTradesLastHour,
      hasPosition, calculatePositionSize, tZero, mdA, pmTenK, defaultConfig, clk0,
      Bind.bind, Except.bind]
  · norm_num [checkPriceSanity, tZero, defaultConfig]

/-- C4 (amended): when market data is unresolvable, validate_trade returns
that failure immediately; for a trade with nonzero price and a portfolio
with positive high-water mark (so every check is defined), the fourteen
checks evaluate in the fixed source order — price sanity, outcome matching,
duplicate, liquidity (market closed), time-to-close, 24h volume, spread,
trade age, rate limit, daily loss limit, drawdown, minimum edge, position
limits, price movement — and validate_trade returns the outcome of the
earliest failing check (so a trade failing both price sanity and trade age
yields the price-sanity reason), or the all-passed success outcome.  With
a zero trade price the pipeline instead raises ZeroDivisionError. -/
theorem validateTrade_first_failure (c : Config) (clk : Clock)
    (t : TradeEvent) (tnw : ℚ) (md : MarketData) (pm : PMState)
    (hprice : t.price ≠ 0) (hpeak : 0 < pm.peak_net_worth) :
    validateTrade c clk t tnw none pm =
      Except.ok (⟨false, Reason.couldNotFetchMarketData⟩, pm) ∧
    ∃ (pm2 : PMState) (r12 r14 : ValidationResult),
      updateDrawdown (updateDailyStats clk pm) = Except.ok pm2 ∧
      checkMinimumEdge c t md = Except.ok r12 ∧
      checkPriceMovement c t md = Except.ok r14 ∧
      (∀ (i : ℕ) (r : ValidationResult),
        [checkPriceSanity c t, checkOutcomeMatching, checkDuplicate,
          checkLiquidity md, checkMarketClosing c clk md, checkVolume c md,
          checkSpread, checkTradeAge c clk t, checkRateLimit c clk pm,
          checkDailyLoss c (updateDailyStats clk pm), checkDrawdown c pm2,
          r12, checkPositionLimits c t tnw pm2, r14][i]? = some r →
        r.passed = false →
        (∀ (j : ℕ) (r2 : ValidationResult), j < i →
          [checkPriceSanity c t, checkOutcomeMatching, checkDuplicate,
            checkLiquidity md, checkMarketClosing c clk md, checkVolume c md,
            checkSpread, checkTradeAge c clk t, checkRateLimit c clk pm,
            checkDailyLoss c (updateDailyStats clk pm), checkDrawdown c pm2,
            r12, checkPositionLimits c t tnw pm2, r14][j]? = some r2 →
          r2.passed = true) →
        validateTrade c clk t tnw (some md) pm = Except.ok (r, pm2)) ∧
      ((∀ r ∈ [checkPriceSanity c t, checkOutcomeMatching, checkDuplicate,
          checkLiquidity md, checkMarketClosing c clk md, checkVolume c md,
          checkSpread, checkTradeAge c clk t, checkRateLimit c clk pm,
          checkDailyLoss c (updateDailyStats clk pm), checkDrawdown c pm2,
          r12, checkPositionLimits c t tnw pm2, r14], r.passed = true) →
        validateTrade c clk t tnw (some md) pm =
          Except.ok (⟨true, Reason.allChecksPassed⟩, pm2)) := by
  refine ⟨rfl, ?_⟩
  obtain ⟨pm2, r12, r14, hdd, h12, h14, heval⟩ :=
    evalChecks_ok c clk t tnw md pm hprice hpeak
  have hvt : validateTrade c clk t tnw (some md) pm =
      Except.ok
        (([checkPriceSanity c t, checkOutcomeMatching, checkDuplicate,
            checkLiquidity md, checkMarketClosing c clk md, checkVolume c md,
            checkSpread, checkTradeAge c clk t, checkRateLimit c clk pm,
            checkDailyLoss c (updateDailyStats clk pm), checkDrawdown c pm2,
            r12, checkPositionLimits c t tnw pm2, r14].find?
            (fun x => !x.passed)).getD ⟨true, Reason.allChecksPassed⟩, pm2) := by
    simp [validateTrade, heval, Bind.bind, Except.bind]
  refine ⟨pm2, r12, r14, hdd, h12, h14, ?_, ?_⟩
  · intro i r hi hr hprev
    rw [hvt, find_first_not_passed _ i r hi hr hprev]
    rfl
  · intro hall
    have hnone :
        [checkPriceSanity c t, checkOutcomeMatching, checkDuplicate,
          checkLiquidity md, checkMarketClosing c clk md, checkVolume c md,
          checkSpread, checkTradeAge c clk t, checkRateLimit c clk pm,
          checkDailyLoss c (updateDailyStats clk pm), checkDrawdown c pm2,
          r12, checkPositionLimits c t tnw pm2, r14].find?
          (fun x => !x.passed) = none := by
      rw [List.find?_eq_none]
      intro x hx
      simp [hall x hx]
    rw [hvt, hnone]
    rfl

/-- Witness for the amended C4: at a concrete nonzero-price trade and the
fresh 10000 USD portfolio, the unresolvable-market-data early return. -/
theorem validateTrade_first_failure_witness :
    (evA.price ≠ 0 ∧ (0:ℚ) < pmTenK.peak_net_worth) ∧
    validateTrade defaultConfig clk0 evA 10000 none pmTenK =
      Except.ok (⟨false, Reason.couldNotFetchMarketData⟩, pmTenK) :=
  ⟨⟨by norm_num [evA], by norm_num [pmTenK]⟩,
    (validateTrade_first_failure defaultConfig clk0 evA 10000 mdA pmTenK
      (by norm_num [evA]) (by norm_num [pmTenK])).1⟩

/-- Counterexample to C5: a trade failing the very first check (price 0.005
is outside the sanity range) still triggers the later checks' side effects:
validate_trade returns the price-sanity failure, yet the portfolio state
comes back with current_drawdown_pct recomputed from 0 to 50 by the
update_drawdown call inside the drawdown check — evaluation is eager, not
short-circuit. -/
theorem early_failure_still_mutates_state :
    validateTrade defaultConfig clk0 tBadPrice 10000 (some mdA) pmPeak200 =
      Except.ok (ValidationResult.mk false Reason.priceOutsideRange,
        { pmPeak200 with current_drawdown_pct := 50 }) ∧
    pmPeak200.current_drawdown_pct = 0 := by
  constructor
  · norm_num [validateTrade, evalChecks, checkPriceSanity, checkOutcomeMatching,
      checkDuplicate, checkLiquidity, checkMarketClosing, checkVolume, checkSpread,
      checkTradeAge, checkRateLimit, checkDailyLoss, checkDrawdown,
      checkMinimumEdge, checkPriceMovement, checkPositionLimits, getCurrentPrice,
      updateDailyStats, updateDrawdown, getNetWorth, getTradesLastHour,
      hasPosition, calculatePositionSize, round2, roundHalfEven, min_def, max_def,
      tBadPrice, mdA, pmPeak200, defaultConfig, clk0, Bind.bind, Except.bind,
      List.find?]
  · rfl

/-- C5 (amended): evaluation of the checks list is eager, not
short-circuit: whatever the first failing check is (if any), the state
mutations of update_daily_stats and update_drawdown always run, and the
state validate_trade hands back is exactly the one they produce. -/
theorem validation_effects_always_run (c : Config) (clk : Clock)
    (t : TradeEvent) (tnw : ℚ) (md : MarketData) (pm : PMState)
    (hprice : t.price ≠ 0) (hpeak : 0 < pm.peak_net_worth) :
    ∃ r pm2, updateDrawdown (updateDailyStats clk pm) = Except.ok pm2 ∧
      validateTrade c clk t tnw (some md) pm = Except.ok (r, pm2) := by
  obtain ⟨pm2, r12, r14, hdd, h12, h14, heval⟩ :=
    evalChecks_ok c clk t tnw md pm hprice hpeak
  have hvt : validateTrade c clk t tnw (some md) pm =
      Except.ok
        (([checkPriceSanity c t, checkOutcomeMatching, checkDuplicate,
            checkLiquidity md, checkMarketClosing c clk md, checkVolume c md,
            checkSpread, checkTradeAge c clk t, checkRateLimit c clk pm,
            checkDailyLoss c (updateDailyStats clk pm), checkDrawdown c pm2,
            r12, checkPositionLimits c t tnw pm2, r14].find?
            (fun x => !x.passed)).getD ⟨true, Reason.allChecksPassed⟩, pm2) := by
    simp [validateTrade, heval, Bind.bind, Except.bind]
  exact ⟨_, pm2, hdd, hvt⟩

/-- Witness for the amended C5: the effects run on the concrete
drawn-down portfolio with the price-sanity-failing trade. -/
theorem validation_effects_always_run_witness :
    (tBadPrice.price ≠ 0 ∧ (0:ℚ) < pmPeak200.peak_net_worth) ∧
    ∃ r pm2, updateDrawdown (updateDailyStats clk0 pmPeak200) = Except.ok pm2 ∧
      validateTrade defaultConfig clk0 tBadPrice 10000 (some mdA) pmPeak200 =
        Except.ok (r, pm2) :=
  ⟨⟨by norm_num [tBadPrice], by norm_num [pmPeak200]⟩,
    validation_effects_always_run defaultConfig clk0 tBadPrice 10000 mdA pmPeak200
      (by norm_num [tBadPrice]) (by norm_num [pmPeak200])⟩

end PMBot
